import Mathlib

/-!
Shallow embedding of the CFM poultry-farm server core: the sales ledger
(src/server/routes/sales.ts), the poultry batch / health-record operations
(src/server/routes/poultry.ts), the public order endpoints
(src/server/routes/orders.ts) and the dashboard recent-activity feed.
SQL rows become Lean structures, the database becomes explicit state, each
HTTP handler becomes a state-passing function, and JavaScript truthiness
tests (for example the check `!quantity` rejecting 0 but not -1) are
translated literally.  Money and count columns are modelled as Int.
-/

namespace CFM

/-! ## JavaScript value helpers -/

/-- JS `x || d` on a string-or-missing value: the empty string and a missing
value are falsy and yield the default. -/
def jsOrString (o : Option String) (d : String) : String :=
  match o with
  | none => d
  | some s => if s == "" then d else s

/-- JS `x || null` on a string-or-missing value, as bound into a SQL
parameter: empty string and missing become NULL. -/
def jsStringOrNull (o : Option String) : Option String :=
  match o with
  | none => none
  | some s => if s == "" then none else some s

/-- JS `x || d` on a number: 0 is falsy and yields the default. -/
def jsOrInt (x d : Int) : Int :=
  if x == 0 then d else x

/-- JS `x || null` on a number-or-missing value bound into SQL: 0 and
missing become NULL. -/
def jsIntOrNull (o : Option Int) : Option Int :=
  match o with
  | none => none
  | some v => if v == 0 then none else some v

/-! ## Sales and customers (src/server/routes/sales.ts, src/server/db/schema.ts)

`customers.total_purchases` defaults to 0 at creation; the sales handlers are
the only mutators modelled here. -/

structure Customer where
  id : Nat
  name : String
  total_purchases : Int
  deriving DecidableEq

structure Sale where
  id : Nat
  customer_id : Nat
  sale_date : String
  sale_type : String
  quantity : Int
  unit_price : Int
  total_amount : Int
  payment_status : String
  payment_method : Option String
  notes : Option String
  deriving DecidableEq

structure SalesDB where
  customers : List Customer
  sales : List Sale
  nextSaleId : Nat
  deriving DecidableEq

/-- Request body of POST /api/sales.  `clientTotal` stands for any total
field a caller may submit; the handler never reads such a field. -/
structure SaleReq where
  customerId : Nat
  saleDate : String
  saleType : String
  quantity : Int
  unitPrice : Int
  paymentStatus : Option String
  paymentMethod : Option String
  notes : Option String
  clientTotal : Option Int
  deriving DecidableEq

inductive SaleResult where
  | created (s : Sale)
  | validationError (msg : String)
  | sqlError
  deriving DecidableEq

def SaleResult.isCreated : SaleResult → Bool
  | .created _ => true
  | _ => false

/-- The JS guard `!customerId || !saleDate || !saleType || !quantity ||
!unitPrice`: a field is rejected exactly when it is falsy (0 for numbers,
empty for strings).  A negative quantity or unit price is truthy and passes. -/
def saleReqMissing (req : SaleReq) : Bool :=
  req.customerId == 0 || req.saleDate == "" || req.saleType == "" ||
    req.quantity == 0 || req.unitPrice == 0

def validSaleTypes : List String := ["eggs", "birds", "manure", "other"]

def validPaymentStatuses : List String := ["pending", "partial", "paid"]

/-- Schema CHECK constraints on the sales INSERT (sale_type and
payment_status); a violating insert throws, so the handler commits nothing. -/
def saleChecksOk (req : SaleReq) : Bool :=
  validSaleTypes.contains req.saleType &&
    validPaymentStatuses.contains (jsOrString req.paymentStatus "pending")

/-- The row the sales INSERT writes; `totalAmount` was computed server-side. -/
def mkSale (req : SaleReq) (sid : Nat) (totalAmount : Int) : Sale :=
  { id := sid
    customer_id := req.customerId
    sale_date := req.saleDate
    sale_type := req.saleType
    quantity := req.quantity
    unit_price := req.unitPrice
    total_amount := totalAmount
    payment_status := jsOrString req.paymentStatus "pending"
    payment_method := jsStringOrNull req.paymentMethod
    notes := jsStringOrNull req.notes }

/-- POST /api/sales: validate, compute `totalAmount = quantity * unitPrice`,
INSERT the sale, then UPDATE the total_purchases of the customer by adding
`totalAmount`.  The two statements are separate auto-committed writes. -/
def recordSale (req : SaleReq) (db : SalesDB) : SalesDB × SaleResult :=
  if saleReqMissing req then
    (db, .validationError "Customer ID, sale date, sale type, quantity, and unit price are required")
  else if !(saleChecksOk req) then
    (db, .sqlError)
  else
    let totalAmount := req.quantity * req.unitPrice
    let sale := mkSale req db.nextSaleId totalAmount
    let customers' := db.customers.map (fun c =>
      if c.id == req.customerId then
        { c with total_purchases := c.total_purchases + totalAmount }
      else c)
    ({ customers := customers', sales := db.sales ++ [sale], nextSaleId := db.nextSaleId + 1 },
     .created sale)

/-- POST /api/sales with a failure injected between its two SQL statements.
better-sqlite3 runs each prepared statement as its own auto-committed write
(the handler opens no transaction), so a failure at step 1 (the customer
UPDATE) leaves the already committed sale INSERT in place; the exception is
caught and reported as a 500. -/
def recordSaleWithFailure (req : SaleReq) (db : SalesDB) (failAt : Option Nat) : SalesDB :=
  if saleReqMissing req then db
  else if !(saleChecksOk req) then db
  else
    let totalAmount := req.quantity * req.unitPrice
    if failAt == some 0 then db
    else
      let db1 : SalesDB :=
        { db with sales := db.sales ++ [mkSale req db.nextSaleId totalAmount],
                  nextSaleId := db.nextSaleId + 1 }
      if failAt == some 1 then db1
      else
        { db1 with customers := db1.customers.map (fun c =>
            if c.id == req.customerId then
              { c with total_purchases := c.total_purchases + totalAmount }
            else c) }

/-- PUT /api/sales/:id writes exactly payment_status, payment_method and
notes.  The schema CHECK on payment_status rejects other non-NULL values,
failing the whole UPDATE. -/
def paymentStatusCheckOk (ps : Option String) : Bool :=
  match ps with
  | none => true
  | some s => validPaymentStatuses.contains s

def updateSale (sid : Nat) (paymentStatus paymentMethod notes : Option String)
    (db : SalesDB) : SalesDB :=
  if paymentStatusCheckOk paymentStatus then
    { db with sales := db.sales.map (fun s =>
        if s.id == sid then
          { s with payment_status := jsOrString paymentStatus "pending",
                   payment_method := paymentMethod,
                   notes := notes }
        else s) }
  else db

/-- DELETE /api/sales/:id: look the sale up first; if present subtract its
stored total_amount from its customer; then delete the row.  A missing sale
is an idempotent success. -/
def deleteSale (sid : Nat) (db : SalesDB) : SalesDB :=
  match db.sales.find? (fun s => s.id == sid) with
  | some sale =>
      { customers := db.customers.map (fun c =>
          if c.id == sale.customer_id then
            { c with total_purchases := c.total_purchases - sale.total_amount }
          else c),
        sales := db.sales.filter (fun s => !(s.id == sid)),
        nextSaleId := db.nextSaleId }
  | none => { db with sales := db.sales.filter (fun s => !(s.id == sid)) }

inductive SaleOp where
  | record (req : SaleReq)
  | update (sid : Nat) (paymentStatus paymentMethod notes : Option String)
  | del (sid : Nat)
  deriving DecidableEq

def applySaleOp (db : SalesDB) : SaleOp → SalesDB
  | .record req => (recordSale req db).1
  | .update sid ps pm n => updateSale sid ps pm n db
  | .del sid => deleteSale sid db

def applySaleOps (db : SalesDB) (ops : List SaleOp) : SalesDB :=
  ops.foldl applySaleOp db

/-- Sum of total_amount over the sales rows referencing customer `cid`. -/
def saleSum (sales : List Sale) (cid : Nat) : Int :=
  ((sales.filter (fun s => s.customer_id == cid)).map (fun s => s.total_amount)).sum

/-- The ledger invariant for customer `cid`: the stored running total equals
the sum over the currently-undeleted sales referencing that customer. -/
abbrev ledgerOk (db : SalesDB) (cid : Nat) : Prop :=
  ∀ c ∈ db.customers, c.id = cid → c.total_purchases = saleSum db.sales cid

/-- Well-formedness the SQL schema provides: sale primary keys are unique
and below the autoincrement cursor. -/
abbrev SalesDB.WF (db : SalesDB) : Prop :=
  (∀ s ∈ db.sales, s.id < db.nextSaleId) ∧ (db.sales.map Sale.id).Nodup

/-- Every persisted sale satisfies total_amount = quantity * unit_price. -/
abbrev salesTotalsOk (db : SalesDB) : Prop :=
  ∀ s ∈ db.sales, s.total_amount = s.quantity * s.unit_price

/-! ## Poultry batches and health records (src/server/routes/poultry.ts) -/

structure PoultryBatch where
  id : Nat
  batch_name : String
  bird_type : String
  initial_count : Int
  current_count : Int
  date_acquired : String
  source : Option String
  cost_per_bird : Option Int
  notes : Option String
  status : String
  deriving DecidableEq

structure HealthRecord where
  id : Nat
  batch_id : Nat
  date : String
  record_type : String
  description : String
  mortality_count : Int
  cost : Int
  administered_by : Option String
  notes : Option String
  deriving DecidableEq

structure PoultryDB where
  batches : List PoultryBatch
  health_records : List HealthRecord
  nextBatchId : Nat
  nextHealthId : Nat
  deriving DecidableEq

/-- Request body of POST /api/poultry/batches. -/
structure BatchReq where
  batchName : String
  birdType : String
  initialCount : Int
  dateAcquired : String
  source : Option String
  costPerBird : Option Int
  notes : Option String
  deriving DecidableEq

/-- Request body of POST /api/poultry/health.  A missing mortalityCount is
stored as 0 by `mortalityCount || 0` and never triggers the decrement, so it
is modelled as the value 0. -/
structure HealthReq where
  batchId : Nat
  date : String
  recordType : String
  description : String
  mortalityCount : Int
  cost : Int
  administeredBy : Option String
  notes : Option String
  deriving DecidableEq

/-- The JS guard `!batchName || !birdType || !initialCount || !dateAcquired`. -/
def batchReqMissing (req : BatchReq) : Bool :=
  req.batchName == "" || req.birdType == "" || req.initialCount == 0 ||
    req.dateAcquired == ""

/-- The row the batch INSERT writes: current_count starts at initial_count
and status takes the schema default active. -/
def mkBatch (req : BatchReq) (bid : Nat) : PoultryBatch :=
  { id := bid
    batch_name := req.batchName
    bird_type := req.birdType
    initial_count := req.initialCount
    current_count := req.initialCount
    date_acquired := req.dateAcquired
    source := jsStringOrNull req.source
    cost_per_bird := jsIntOrNull req.costPerBird
    notes := jsStringOrNull req.notes
    status := "active" }

/-- POST /api/poultry/batches. -/
def createBatch (req : BatchReq) (db : PoultryDB) : PoultryDB × Option PoultryBatch :=
  if batchReqMissing req then (db, none)
  else
    let b := mkBatch req db.nextBatchId
    ({ db with batches := db.batches ++ [b], nextBatchId := db.nextBatchId + 1 }, some b)

/-- The JS guard `!batchId || !date || !recordType || !description`. -/
def healthReqMissing (req : HealthReq) : Bool :=
  req.batchId == 0 || req.date == "" || req.recordType == "" || req.description == ""

def validRecordTypes : List String :=
  ["vaccination", "medication", "checkup", "mortality", "other"]

/-- POST /api/poultry/health: validate, INSERT the record (mortality_count
stored via `mortalityCount || 0`), then, only when
`mortalityCount && mortalityCount > 0`, UPDATE the batch by subtracting
mortalityCount from current_count.  Nothing clamps the subtraction at 0.
A record_type outside the schema CHECK list fails the INSERT and nothing
is written. -/
def mkHealthRecord (req : HealthReq) (hid : Nat) : HealthRecord :=
  { id := hid
    batch_id := req.batchId
    date := req.date
    record_type := req.recordType
    description := req.description
    mortality_count := jsOrInt req.mortalityCount 0
    cost := jsOrInt req.cost 0
    administered_by := jsStringOrNull req.administeredBy
    notes := jsStringOrNull req.notes }

def recordHealthEvent (req : HealthReq) (db : PoultryDB) : PoultryDB × Option HealthRecord :=
  if healthReqMissing req then (db, none)
  else if !(validRecordTypes.contains req.recordType) then (db, none)
  else
    let hrNew := mkHealthRecord req db.nextHealthId
    let db1 : PoultryDB :=
      { db with health_records := db.health_records ++ [hrNew],
                nextHealthId := db.nextHealthId + 1 }
    if !(req.mortalityCount == 0) && decide (0 < req.mortalityCount) then
      ({ db1 with batches := db1.batches.map (fun b =>
          if b.id == req.batchId then
            { b with current_count := b.current_count - req.mortalityCount }
          else b) }, some hrNew)
    else (db1, some hrNew)

/-- Sum of mortality_count over the health records referencing batch `bid`. -/
def mortalitySum (recs : List HealthRecord) (bid : Nat) : Int :=
  ((recs.filter (fun r => r.batch_id == bid)).map (fun r => r.mortality_count)).sum

/-- The mortality invariant for batch `bid`:
current_count = initial_count - (mortality recorded against the batch). -/
abbrev mortalityOk (db : PoultryDB) (bid : Nat) : Prop :=
  ∀ b ∈ db.batches, b.id = bid →
    b.current_count = b.initial_count - mortalitySum db.health_records bid

/-! ## Orders (src/server/routes/orders.ts) -/

structure OrderItem where
  product : String
  quantity : Int
  unitPrice : Int
  deriving DecidableEq

structure Order where
  id : Nat
  order_number : String
  customer_name : String
  customer_email : Option String
  customer_phone : String
  delivery_address : Option String
  order_items : List OrderItem
  total_amount : Int
  notes : Option String
  status : String
  deriving DecidableEq

structure OrderDB where
  orders : List Order
  nextOrderId : Nat
  deriving DecidableEq

/-- Request body of POST /api/orders.  `clientTotal` stands for any total
field a caller may submit; the handler never reads such a field. -/
structure OrderReq where
  customerName : String
  customerEmail : Option String
  customerPhone : String
  deliveryAddress : Option String
  items : List OrderItem
  notes : Option String
  clientTotal : Option Int
  deriving DecidableEq

/-- Base-36 digit as the uppercased character the handler ends up with
(`toString(36)` renders lowercase, then `.toUpperCase()`). -/
def b36Char (n : Nat) : Char :=
  if n < 10 then Char.ofNat (48 + n) else Char.ofNat (55 + n)

/-- Base-36 rendering of a Nat, most significant digit first; fuel-based so
it reduces definitionally (fuel n+1 always suffices for input n). -/
def toB36Go (fuel : Nat) (n : Nat) : List Char :=
  match fuel with
  | 0 => []
  | fuel + 1 =>
    if n < 36 then [b36Char n]
    else toB36Go fuel (n / 36) ++ [b36Char (n % 36)]

def toB36 (n : Nat) : List Char := toB36Go (n + 1) n

/-- `Math.random().toString(36).substring(2, 6)`: the random draw prints as
the two characters 0. followed by its base-36 fraction digits (just 0 for
the draw 0, and possibly fewer than four digits for a draw with a short
terminating expansion, such as 0.5 printing as 0.i), so the suffix is the
first at-most-four of those digits.  `rand` is that digit sequence. -/
def randChars (rand : List (Fin 36)) : List Char :=
  (rand.take 4).map (fun d => b36Char d.val)

/-- generateOrderNumber:
prefix CFM, dash, Date.now() in base 36 uppercased, dash, the random suffix. -/
def generateOrderNumber (timeMs : Nat) (rand : List (Fin 36)) : String :=
  String.mk ('C' :: 'F' :: 'M' :: '-' :: (toB36 timeMs ++ '-' :: randChars rand))

def isB36Char (c : Char) : Bool :=
  (decide ('0' ≤ c) && decide (c ≤ '9')) || (decide ('A' ≤ c) && decide (c ≤ 'Z'))

/-- Split a character list at its first dash. -/
def splitAtDash : List Char → Option (List Char × List Char)
  | [] => none
  | c :: cs =>
    if c = '-' then some ([], cs)
    else
      match splitAtDash cs with
      | some (xs, ys) => some (c :: xs, ys)
      | none => none

/-- Decides the pattern the spec claims for order numbers:
CFM-[A-Z0-9]+-[A-Z0-9]{4} with a suffix of exactly four characters. -/
def matchesOrderPattern (s : String) : Bool :=
  match s.data with
  | 'C' :: 'F' :: 'M' :: '-' :: rest =>
    match splitAtDash rest with
    | some (ts, suffix) =>
      !ts.isEmpty && ts.all isB36Char && suffix.length == 4 && suffix.all isB36Char
    | none => false
  | _ => false

inductive PlaceResult where
  | placed (o : Order)
  | badRequest (msg : String)
  | sqlError
  deriving DecidableEq

/-- The per-item guard `!item.product || !item.quantity || item.quantity < 1`. -/
def itemInvalid (i : OrderItem) : Bool :=
  i.product == "" || i.quantity == 0 || decide (i.quantity < 1)

/-- The row the orders INSERT writes: status takes the schema default new
and the submitted items are stored as a snapshot. -/
def mkOrder (req : OrderReq) (orderNumber : String) (oid : Nat) (totalAmount : Int) : Order :=
  { id := oid
    order_number := orderNumber
    customer_name := req.customerName
    customer_email := jsStringOrNull req.customerEmail
    customer_phone := req.customerPhone
    delivery_address := jsStringOrNull req.deliveryAddress
    order_items := req.items
    total_amount := totalAmount
    notes := jsStringOrNull req.notes
    status := "new" }

/-- The total computation of the handler
`items.reduce((sum, item) => sum + item.quantity * (item.unitPrice || 0), 0)`. -/
def orderTotal (items : List OrderItem) : Int :=
  items.foldl (fun sum i => sum + i.quantity * jsOrInt i.unitPrice 0) 0

/-- POST /api/orders: validate, compute the total server-side from the
items via reduce, generate an order number, INSERT with status new.  The
UNIQUE constraint on order_number fails the insert on a collision (no
retry).  The follow-up notification email is best-effort and touches no
state modelled here. -/
def placeOrder (req : OrderReq) (timeMs : Nat) (rand : List (Fin 36))
    (db : OrderDB) : OrderDB × PlaceResult :=
  if req.customerName == "" || req.customerPhone == "" || req.items.isEmpty then
    (db, .badRequest "Customer name, phone, and at least one item are required")
  else if req.items.any itemInvalid then
    (db, .badRequest "Each item must have a product and quantity >= 1")
  else if db.orders.any (fun o => o.order_number == generateOrderNumber timeMs rand) then
    (db, .sqlError)
  else
    ({ orders := db.orders ++
        [mkOrder req (generateOrderNumber timeMs rand) db.nextOrderId (orderTotal req.items)],
       nextOrderId := db.nextOrderId + 1 },
     .placed (mkOrder req (generateOrderNumber timeMs rand) db.nextOrderId (orderTotal req.items)))

def validStatuses : List String :=
  ["new", "confirmed", "processing", "delivered", "cancelled"]

inductive StatusResult where
  | ok (o : Order)
  | invalid
  | notFound
  deriving DecidableEq

/-- PUT /api/orders/:id/status: reject a falsy or unlisted status with 400;
otherwise UPDATE the status unconditionally (no transition graph is
consulted) and then look the order up, returning 404 if it is absent. -/
def updateOrderStatus (db : OrderDB) (oid : Nat) (status : String) :
    OrderDB × StatusResult :=
  if status == "" || !(validStatuses.contains status) then (db, .invalid)
  else
    let orders' := db.orders.map (fun o =>
      if o.id == oid then { o with status := status } else o)
    ({ db with orders := orders' },
     match orders'.find? (fun o => o.id == oid) with
     | some o => .ok o
     | none => .notFound)

/-! ## Dashboard recent activities (GET /api/dashboard/activities) -/

structure EggRow where
  id : Nat
  date : String
  eggs_collected : Int
  created_at : Nat
  deriving DecidableEq

structure SaleRow where
  id : Nat
  sale_date : String
  sale_type : String
  total_amount : Int
  customer_id : Option Nat
  created_at : Nat
  deriving DecidableEq

structure HealthRow where
  id : Nat
  date : String
  record_type : String
  description : String
  batch_id : Option Nat
  created_at : Nat
  deriving DecidableEq

structure DashDB where
  egg_production : List EggRow
  sales : List SaleRow
  health_records : List HealthRow
  customers : List (Nat × String)
  poultry_batches : List (Nat × String)
  deriving DecidableEq

inductive ActValue where
  | num (n : Int)
  | str (s : String)
  deriving DecidableEq

/-- The columns each activity SELECT produces: type, id, the date column
aliased as timestamp, value, description.  There is no `date` field. -/
structure ActivityRow where
  type : String
  id : Nat
  timestamp : String
  value : ActValue
  description : Option String
  deriving DecidableEq

/-- Stable insertion sort with a JS-style three-way comparator: an element
goes in front of the first element it does not compare greater than. -/
def insertCmp {α : Type} (cmp : α → α → Int) (x : α) : List α → List α
  | [] => [x]
  | y :: ys => if cmp x y ≤ 0 then x :: y :: ys else y :: insertCmp cmp x ys

def stableSortBy {α : Type} (cmp : α → α → Int) : List α → List α
  | [] => []
  | x :: xs => insertCmp cmp x (stableSortBy cmp xs)

/-- ORDER BY created_at DESC. -/
def orderByCreatedDesc {α : Type} (key : α → Nat) (l : List α) : List α :=
  stableSortBy (fun a b => (key b : Int) - (key a : Int)) l

/-- The comparator `(a, b) => new Date(b.date).getTime() - new Date(a.date).getTime()`
from the activities handler.  The selected rows carry their date column under
the alias `timestamp` and have no `date` property, so both getTime() calls
yield NaN, the subtraction yields NaN, and ECMAScript SortCompare treats a
NaN comparator result as +0: every comparison is a tie. -/
def activitiesCompare (_a _b : ActivityRow) : Int := 0

def lookupName (l : List (Nat × String)) (k : Option Nat) : Option String :=
  match k with
  | none => none
  | some k => (l.find? (fun p => p.1 == k)).map (fun p => p.2)

/-- GET /api/dashboard/activities: take the `limit` most recent rows of each
of the three tables (by created_at), tag and project them, concatenate,
apply the sort (see `activitiesCompare`), and slice to `limit`.
`parseInt(req.query.limit) || 20` makes a missing, unparsable or zero
limit default to 20. -/
def getActivities (db : DashDB) (limitParam : Option Nat) : List ActivityRow :=
  let lim := match limitParam with
    | none => 20
    | some n => if n == 0 then 20 else n
  let recentEggs := ((orderByCreatedDesc (fun e : EggRow => e.created_at) db.egg_production).take lim).map
    (fun e => ({ type := "egg", id := e.id, timestamp := e.date,
                 value := .num e.eggs_collected, description := some "Eggs collected" } : ActivityRow))
  let recentSales := ((orderByCreatedDesc (fun s : SaleRow => s.created_at) db.sales).take lim).map
    (fun s => ({ type := "sale", id := s.id, timestamp := s.sale_date,
                 value := .num s.total_amount,
                 description := (lookupName db.customers s.customer_id).map
                   (fun n => n ++ " - " ++ s.sale_type) } : ActivityRow))
  let recentHealth := ((orderByCreatedDesc (fun h : HealthRow => h.created_at) db.health_records).take lim).map
    (fun h => ({ type := "health", id := h.id, timestamp := h.date,
                 value := .str h.record_type,
                 description := (lookupName db.poultry_batches h.batch_id).map
                   (fun n => n ++ " - " ++ h.description) } : ActivityRow))
  let activities := recentEggs ++ recentSales ++ recentHealth
  (stableSortBy activitiesCompare activities).take lim

/-- Lexicographic strict order on character lists by code point (the usual
string order, under which ISO dates sort chronologically). -/
def charListLt : List Char → List Char → Bool
  | _, [] => false
  | [], _ :: _ => true
  | a :: as, b :: bs =>
    if a.toNat < b.toNat then true
    else if b.toNat < a.toNat then false
    else charListLt as bs

def strLt (a b : String) : Bool := charListLt a.data b.data

/-- Descending-by-timestamp shape the spec claims for the activities feed:
no row is followed by a row with a strictly newer timestamp. -/
abbrev timestampsSortedDesc (l : List ActivityRow) : Prop :=
  l.Pairwise (fun a b => strLt a.timestamp b.timestamp = false)

/-! ## Concrete states and requests used by witnesses and counterexamples -/

def dbW1 : SalesDB :=
  { customers := [{ id := 1, name := "Jane", total_purchases := 0 }],
    sales := [], nextSaleId := 1 }

def reqW1 : SaleReq :=
  { customerId := 1, saleDate := "2024-05-01", saleType := "eggs",
    quantity := 10, unitPrice := 1000,
    paymentStatus := none, paymentMethod := none, notes := none, clientTotal := none }

def opsW1 : List SaleOp :=
  [SaleOp.record reqW1, SaleOp.update 1 (some "paid") none none,
   SaleOp.record reqW1, SaleOp.del 1]

def dbC2 : SalesDB :=
  { customers := [{ id := 1, name := "Carol", total_purchases := 0 }],
    sales := [], nextSaleId := 1 }

def reqC2 : SaleReq :=
  { customerId := 1, saleDate := "2024-05-02", saleType := "eggs",
    quantity := 10, unitPrice := 1000,
    paymentStatus := none, paymentMethod := none, notes := none, clientTotal := none }

def dbW4 : SalesDB :=
  { customers := [{ id := 2, name := "Bob", total_purchases := 500 }],
    sales := [{ id := 1, customer_id := 2, sale_date := "2024-01-01", sale_type := "eggs",
                quantity := 5, unit_price := 100, total_amount := 500,
                payment_status := "paid", payment_method := none, notes := none }],
    nextSaleId := 2 }

def reqW4 : SaleReq :=
  { customerId := 2, saleDate := "2024-02-01", saleType := "birds",
    quantity := 3, unitPrice := 7,
    paymentStatus := some "partial", paymentMethod := some "cash", notes := none,
    clientTotal := some 999 }

def opsW4 : List SaleOp :=
  [SaleOp.record reqW4, SaleOp.update 1 (some "partial") none (some "n"), SaleOp.del 3]

def dbC8 : SalesDB :=
  { customers := [{ id := 1, name := "Dan", total_purchases := 0 }],
    sales := [], nextSaleId := 1 }

def reqC8 : SaleReq :=
  { customerId := 1, saleDate := "2024-03-01", saleType := "eggs",
    quantity := -1, unitPrice := 5,
    paymentStatus := none, paymentMethod := none, notes := none, clientTotal := none }

def reqW8 : SaleReq :=
  { customerId := 1, saleDate := "2024-03-01", saleType := "eggs",
    quantity := 0, unitPrice := 5,
    paymentStatus := none, paymentMethod := none, notes := none, clientTotal := none }

def dbW10 : SalesDB := dbW4

def dbC3 : PoultryDB :=
  { batches := [], health_records := [], nextBatchId := 1, nextHealthId := 1 }

def breqC3 : BatchReq :=
  { batchName := "B1", birdType := "layers", initialCount := 1,
    dateAcquired := "2024-01-01", source := none, costPerBird := none, notes := none }

def hreqC3 : HealthReq :=
  { batchId := 1, date := "2024-01-02", recordType := "mortality",
    description := "losses", mortalityCount := 5, cost := 0,
    administeredBy := none, notes := none }

def dbW3 : PoultryDB :=
  { batches := [], health_records := [], nextBatchId := 1, nextHealthId := 1 }

def breqW3 : BatchReq :=
  { batchName := "B2", birdType := "layers", initialCount := 500,
    dateAcquired := "2024-01-01", source := none, costPerBird := none, notes := none }

def reqsW3 : List HealthReq :=
  [{ batchId := 1, date := "2024-01-02", recordType := "mortality",
     description := "losses", mortalityCount := 5, cost := 0,
     administeredBy := none, notes := none },
   { batchId := 1, date := "2024-01-03", recordType := "mortality",
     description := "losses", mortalityCount := 3, cost := 0,
     administeredBy := none, notes := none }]

def dbW5 : OrderDB := { orders := [], nextOrderId := 1 }

def reqW5 : OrderReq :=
  { customerName := "Jane", customerEmail := none, customerPhone := "0700000000",
    deliveryAddress := none,
    items := [{ product := "eggs_tray", quantity := 2, unitPrice := 15000 }],
    notes := none, clientTotal := none }

def randW6 : List (Fin 36) := [10, 11, 12, 13]

def oW5 : Order :=
  { id := 1, order_number := "CFM-0-ABCD", customer_name := "Jane",
    customer_email := none, customer_phone := "0700000000", delivery_address := none,
    order_items := [{ product := "eggs_tray", quantity := 2, unitPrice := 15000 }],
    total_amount := 30000, notes := none, status := "new" }

def dbW5out : OrderDB := { orders := [oW5], nextOrderId := 2 }

/-- A random draw with a short base-36 expansion: 0.5 prints as 0.i, so the
suffix taken by substring(2, 6) is the single character I. -/
def randC6 : List (Fin 36) := [18]

def ordW7 : Order :=
  { id := 1, order_number := "CFM-1-AAAA", customer_name := "Kim",
    customer_email := none, customer_phone := "0700000001", delivery_address := none,
    order_items := [], total_amount := 0, notes := none, status := "delivered" }

def dbW7 : OrderDB := { orders := [ordW7], nextOrderId := 2 }

/-- One egg record with an older date and one sale with a newer date; the
egg row comes first in the merged feed although its timestamp is older. -/
def dbC9 : DashDB :=
  { egg_production := [{ id := 1, date := "2024-01-01", eggs_collected := 30, created_at := 5 }],
    sales := [{ id := 1, sale_date := "2024-06-01", sale_type := "eggs",
                total_amount := 10000, customer_id := none, created_at := 9 }],
    health_records := [], customers := [], poultry_batches := [] }

/-! ## Helper lemmas about the sales model -/

theorem jsOrInt_zero (x : Int) : jsOrInt x 0 = x := by
  by_cases h : x = 0
  · subst h; rfl
  · simp [jsOrInt, h]

theorem saleSum_nil (cid : Nat) : saleSum [] cid = 0 := rfl

theorem saleSum_cons (s : Sale) (l : List Sale) (cid : Nat) :
    saleSum (s :: l) cid =
      (if s.customer_id = cid then s.total_amount else 0) + saleSum l cid := by
  by_cases h : s.customer_id = cid
  · simp [saleSum, List.filter_cons, h]
  · simp [saleSum, List.filter_cons, h]

theorem saleSum_append (l₁ l₂ : List Sale) (cid : Nat) :
    saleSum (l₁ ++ l₂) cid = saleSum l₁ cid + saleSum l₂ cid := by
  simp [saleSum, List.filter_append]

theorem saleSum_map_keep (u : Sale → Sale) (l : List Sale) (cid : Nat)
    (hc : ∀ s, (u s).customer_id = s.customer_id)
    (ht : ∀ s, (u s).total_amount = s.total_amount) :
    saleSum (l.map u) cid = saleSum l cid := by
  induction l with
  | nil => rfl
  | cons s l ih => simp only [List.map_cons, saleSum_cons, hc, ht, ih]

theorem saleSum_eq_zero (l : List Sale) (cid : Nat)
    (h : ∀ s ∈ l, s.customer_id ≠ cid) : saleSum l cid = 0 := by
  induction l with
  | nil => rfl
  | cons s l ih =>
    rw [saleSum_cons, if_neg (h s (List.mem_cons_self s l)),
      ih (fun x hx => h x (List.mem_cons_of_mem s hx))]
    ring

theorem saleSum_filter_ne (sales : List Sale) (sid : Nat) (sale : Sale) (cid : Nat)
    (hnd : (sales.map Sale.id).Nodup) (hmem : sale ∈ sales) (hid : sale.id = sid) :
    saleSum (sales.filter (fun s => !(s.id == sid))) cid
      = saleSum sales cid - (if sale.customer_id = cid then sale.total_amount else 0) := by
  induction sales with
  | nil => cases hmem
  | cons s rest ih =>
    rw [List.map_cons, List.nodup_cons] at hnd
    obtain ⟨hs, hrest⟩ := hnd
    by_cases h : s.id = sid
    · have hsale : sale = s := by
        rcases List.mem_cons.mp hmem with h1 | h1
        · exact h1
        · exfalso
          apply hs
          have hm : sale.id ∈ rest.map Sale.id := List.mem_map_of_mem Sale.id h1
          rwa [hid, ← h] at hm
      have hall : rest.filter (fun s => !(s.id == sid)) = rest := by
        apply List.filter_eq_self.mpr
        intro r hr
        have : r.id ≠ sid := by
          intro he
          apply hs
          have hm : r.id ∈ rest.map Sale.id := List.mem_map_of_mem Sale.id hr
          rwa [he, ← h] at hm
        simp [this]
      rw [List.filter_cons, if_neg (by simp [h]), hall, hsale, saleSum_cons]
      ring
    · have hsale : sale ∈ rest := by
        rcases List.mem_cons.mp hmem with h1 | h1
        · exact absurd (h1 ▸ hid) h
        · exact h1
      rw [List.filter_cons, if_pos (by simp [h]), saleSum_cons, saleSum_cons,
        ih hrest hsale]
      ring

/-! ## Preservation lemmas for the sales operations -/

theorem mkSale_customer_id (req : SaleReq) (sid : Nat) (t : Int) :
    (mkSale req sid t).customer_id = req.customerId := rfl

theorem mkSale_total_amount (req : SaleReq) (sid : Nat) (t : Int) :
    (mkSale req sid t).total_amount = t := rfl

theorem mkSale_id (req : SaleReq) (sid : Nat) (t : Int) :
    (mkSale req sid t).id = sid := rfl

theorem ledgerOk_recordSale (req : SaleReq) (db : SalesDB) (cid : Nat)
    (h : ledgerOk db cid) : ledgerOk (recordSale req db).1 cid := by
  unfold recordSale
  split
  · exact h
  · split
    · exact h
    · intro c' hc' hcid
      simp only at hc' hcid ⊢
      rw [List.mem_map] at hc'
      obtain ⟨c, hc, rfl⟩ := hc'
      rw [saleSum_append, saleSum_cons, saleSum_nil, mkSale_customer_id,
        mkSale_total_amount]
      by_cases hmatch : c.id = req.customerId
      · rw [if_pos (by simp [hmatch])] at hcid ⊢
        simp only at hcid
        rw [if_pos (by omega), h c hc (by omega)]
        ring
      · rw [if_neg (by simp [hmatch])] at hcid ⊢
        rw [if_neg (by omega), h c hc hcid]
        ring

theorem ledgerOk_updateSale (sid : Nat) (ps pm n : Option String) (db : SalesDB) (cid : Nat)
    (h : ledgerOk db cid) : ledgerOk (updateSale sid ps pm n db) cid := by
  unfold updateSale
  split
  · intro c hc hcid
    simp only at hc ⊢
    rw [saleSum_map_keep]
    · exact h c hc hcid
    · intro s; split <;> rfl
    · intro s; split <;> rfl
  · exact h

theorem ledgerOk_deleteSale (sid : Nat) (db : SalesDB) (cid : Nat)
    (hwf : db.WF) (h : ledgerOk db cid) : ledgerOk (deleteSale sid db) cid := by
  unfold deleteSale
  obtain ⟨-, hnd⟩ := hwf
  cases hfind : db.sales.find? (fun s => s.id == sid) with
  | none =>
    intro c hc hcid
    simp only at hc ⊢
    have : db.sales.filter (fun s => !(s.id == sid)) = db.sales := by
      apply List.filter_eq_self.mpr
      intro r hr
      have := List.find?_eq_none.mp hfind r hr
      simpa using this
    rw [this]
    exact h c hc hcid
  | some sale =>
    have hmem : sale ∈ db.sales := List.mem_of_find?_eq_some hfind
    have hid : sale.id = sid := by
      have := List.find?_some hfind
      simpa using this
    intro c' hc' hcid
    simp only at hc' ⊢
    rw [List.mem_map] at hc'
    obtain ⟨c, hc, rfl⟩ := hc'
    rw [saleSum_filter_ne db.sales sid sale cid hnd hmem hid]
    by_cases hmatch : c.id = sale.customer_id
    · rw [if_pos (by simp [hmatch])] at hcid ⊢
      simp only at hcid
      rw [if_pos (by omega), h c hc (by omega)]
    · rw [if_neg (by simp [hmatch])] at hcid ⊢
      rw [if_neg (by omega), h c hc hcid]
      ring

theorem WF_recordSale (req : SaleReq) (db : SalesDB) (hwf : db.WF) :
    ((recordSale req db).1).WF := by
  unfold recordSale
  split
  · exact hwf
  · split
    · exact hwf
    · obtain ⟨hlt, hnd⟩ := hwf
      constructor
      · intro s hs
        simp only at hs ⊢
        rcases List.mem_append.mp hs with h1 | h1
        · exact Nat.lt_succ_of_lt (hlt s h1)
        · rw [List.mem_singleton.mp h1, mkSale_id]
          omega
      · simp only [List.map_append, List.map_cons, List.map_nil]
        rw [List.nodup_append]
        refine ⟨hnd, List.nodup_singleton _, ?_⟩
        intro a ha hb
        rw [List.mem_singleton] at hb
        rw [List.mem_map] at ha
        obtain ⟨s, hs, rfl⟩ := ha
        have := hlt s hs
        rw [mkSale_id] at hb
        omega

theorem WF_updateSale (sid : Nat) (ps pm n : Option String) (db : SalesDB)
    (hwf : db.WF) : (updateSale sid ps pm n db).WF := by
  unfold updateSale
  split
  · obtain ⟨hlt, hnd⟩ := hwf
    have hids : (db.sales.map (fun s =>
        if s.id == sid then
          { s with payment_status := jsOrString ps "pending",
                   payment_method := pm, notes := n }
        else s)).map Sale.id = db.sales.map Sale.id := by
      rw [List.map_map]
      apply List.map_congr_left
      intro s _
      simp only [Function.comp]
      split <;> rfl
    constructor
    · intro s hs
      simp only at hs ⊢
      rw [List.mem_map] at hs
      obtain ⟨x, hx, rfl⟩ := hs
      have hxlt := hlt x hx
      split <;> exact hxlt
    · simp only
      rw [hids]
      exact hnd
  · exact hwf

theorem WF_deleteSale (sid : Nat) (db : SalesDB) (hwf : db.WF) :
    (deleteSale sid db).WF := by
  unfold deleteSale
  obtain ⟨hlt, hnd⟩ := hwf
  have hsub : List.Sublist (db.sales.filter (fun s => !(s.id == sid))) db.sales :=
    List.filter_sublist _
  have h1 : ∀ s ∈ db.sales.filter (fun s => !(s.id == sid)), s.id < db.nextSaleId :=
    fun s hs => hlt s (hsub.subset hs)
  have h2 : ((db.sales.filter (fun s => !(s.id == sid))).map Sale.id).Nodup :=
    List.Nodup.sublist (List.Sublist.map Sale.id hsub) hnd
  split <;> exact ⟨h1, h2⟩

theorem WF_applySaleOp (db : SalesDB) (op : SaleOp) (hwf : db.WF) :
    (applySaleOp db op).WF := by
  cases op with
  | record req => exact WF_recordSale req db hwf
  | update sid ps pm n => exact WF_updateSale sid ps pm n db hwf
  | del sid => exact WF_deleteSale sid db hwf

theorem ledgerOk_applySaleOp (db : SalesDB) (op : SaleOp) (cid : Nat)
    (hwf : db.WF) (h : ledgerOk db cid) : ledgerOk (applySaleOp db op) cid := by
  cases op with
  | record req => exact ledgerOk_recordSale req db cid h
  | update sid ps pm n => exact ledgerOk_updateSale sid ps pm n db cid h
  | del sid => exact ledgerOk_deleteSale sid db cid hwf h

theorem salesInv_applySaleOps (ops : List SaleOp) (db : SalesDB) (cid : Nat)
    (hwf : db.WF) (h : ledgerOk db cid) :
    (applySaleOps db ops).WF ∧ ledgerOk (applySaleOps db ops) cid := by
  induction ops generalizing db with
  | nil => exact ⟨hwf, h⟩
  | cons op ops ih =>
    exact ih (applySaleOp db op) (WF_applySaleOp db op hwf)
      (ledgerOk_applySaleOp db op cid hwf h)

theorem totalsOk_recordSale (req : SaleReq) (db : SalesDB)
    (h : salesTotalsOk db) : salesTotalsOk (recordSale req db).1 := by
  unfold recordSale
  split
  · exact h
  · split
    · exact h
    · intro s hs
      simp only at hs
      rcases List.mem_append.mp hs with h1 | h1
      · exact h s h1
      · rw [List.mem_singleton.mp h1]
        rfl

theorem totalsOk_updateSale (sid : Nat) (ps pm n : Option String) (db : SalesDB)
    (h : salesTotalsOk db) : salesTotalsOk (updateSale sid ps pm n db) := by
  unfold updateSale
  split
  · intro s hs
    simp only at hs
    rw [List.mem_map] at hs
    obtain ⟨x, hx, rfl⟩ := hs
    have := h x hx
    split <;> exact this
  · exact h

theorem totalsOk_deleteSale (sid : Nat) (db : SalesDB)
    (h : salesTotalsOk db) : salesTotalsOk (deleteSale sid db) := by
  unfold deleteSale
  have hsub : ∀ s ∈ db.sales.filter (fun s => !(s.id == sid)),
      s.total_amount = s.quantity * s.unit_price :=
    fun s hs => h s ((List.filter_sublist _).subset hs)
  split
  · exact hsub
  · exact hsub

theorem totalsOk_applySaleOp (db : SalesDB) (op : SaleOp)
    (h : salesTotalsOk db) : salesTotalsOk (applySaleOp db op) := by
  cases op with
  | record req => exact totalsOk_recordSale req db h
  | update sid ps pm n => exact totalsOk_updateSale sid ps pm n db h
  | del sid => exact totalsOk_deleteSale sid db h

theorem totalsOk_applySaleOps (ops : List SaleOp) (db : SalesDB)
    (h : salesTotalsOk db) : salesTotalsOk (applySaleOps db ops) := by
  induction ops generalizing db with
  | nil => exact h
  | cons op ops ih => exact ih (applySaleOp db op) (totalsOk_applySaleOp db op h)

/-! ## Claims about the sales ledger -/

/-- C1: for every sequence of RecordSale, DeleteSale (and sale-update)
operations applied to a database in which customer `cid` exists with
total_purchases 0 and no sale references `cid`, after the sequence the
total_purchases of the customer equals the sum of total_amount over the
currently-undeleted sales referencing that customer.  Since every prefix of
such a sequence is itself such a sequence, the invariant holds after each
operation. -/
theorem ledger_invariant (db : SalesDB) (cid : Nat) (ops : List SaleOp)
    (hwf : db.WF)
    (hzero : ∀ c ∈ db.customers, c.id = cid → c.total_purchases = 0)
    (hnosale : ∀ s ∈ db.sales, s.customer_id ≠ cid) :
    ledgerOk (applySaleOps db ops) cid := by
  have h0 : ledgerOk db cid := by
    intro c hc hcid
    rw [saleSum_eq_zero db.sales cid hnosale]
    exact hzero c hc hcid
  exact (salesInv_applySaleOps ops db cid hwf h0).2

/-- Witness instantiating C1: a customer starting at 0, two RecordSale
calls of 10 x 1000, one payment update and one DeleteSale. -/
theorem ledger_invariant_witness :
    (dbW1.WF ∧ (∀ c ∈ dbW1.customers, c.id = 1 → c.total_purchases = 0) ∧
      (∀ s ∈ dbW1.sales, s.customer_id ≠ 1)) ∧
    ledgerOk (applySaleOps dbW1 opsW1) 1 :=
  ⟨⟨by decide, by decide, by decide⟩,
    ledger_invariant dbW1 1 opsW1 (by decide) (by decide) (by decide)⟩

/-- C2 counterexample: with the customer-update step failing right after
the sale INSERT (failure index 1), the new Sale row is still observed
committed while total_purchases is unchanged, because the handler runs the
two statements without a transaction.  This refutes the claimed rollback. -/
theorem recordSale_counter_failure_cex :
    (recordSaleWithFailure reqC2 dbC2 (some 1)).sales.length = 1 ∧
    (recordSaleWithFailure reqC2 dbC2 (some 1)).customers = dbC2.customers := by
  decide

/-- C2 amended: RecordSale issues the Sale INSERT and the counter UPDATE as
two separate auto-committed statements.  A failure before the insert leaves
the database unchanged, but a failure of the counter update after the insert
leaves the Sale committed and every customer row untouched - there is no
rollback.  Absent failures, the injected-failure model agrees with the
plain handler. -/
theorem recordSale_failure_semantics (req : SaleReq) (db : SalesDB)
    (hv : saleReqMissing req = false) (hck : saleChecksOk req = true) :
    recordSaleWithFailure req db none = (recordSale req db).1 ∧
    recordSaleWithFailure req db (some 0) = db ∧
    (recordSaleWithFailure req db (some 1)).customers = db.customers ∧
    (recordSaleWithFailure req db (some 1)).sales
      = db.sales ++ [mkSale req db.nextSaleId (req.quantity * req.unitPrice)] := by
  refine ⟨?_, ?_, ?_, ?_⟩ <;>
    simp [recordSaleWithFailure, recordSale, hv, hck]

/-- Witness instantiating the amended C2 on a concrete valid request. -/
theorem recordSale_failure_semantics_witness :
    (saleReqMissing reqC2 = false ∧ saleChecksOk reqC2 = true) ∧
    (recordSaleWithFailure reqC2 dbC2 none = (recordSale reqC2 dbC2).1 ∧
      recordSaleWithFailure reqC2 dbC2 (some 0) = dbC2 ∧
      (recordSaleWithFailure reqC2 dbC2 (some 1)).customers = dbC2.customers ∧
      (recordSaleWithFailure reqC2 dbC2 (some 1)).sales
        = dbC2.sales ++ [mkSale reqC2 dbC2.nextSaleId (reqC2.quantity * reqC2.unitPrice)]) :=
  ⟨⟨by decide, by decide⟩,
    recordSale_failure_semantics reqC2 dbC2 (by decide) (by decide)⟩

/-- C4: starting from a database whose persisted sales all satisfy
total_amount = quantity * unit_price (in particular an empty one), every
sequence of sale operations preserves that equation for every persisted
sale; moreover the created total is computed server-side: any
client-supplied total field is ignored by RecordSale. -/
theorem sale_total_correct (db : SalesDB) (ops : List SaleOp)
    (h : salesTotalsOk db) :
    salesTotalsOk (applySaleOps db ops) ∧
    ∀ req t, recordSale { req with clientTotal := t } db = recordSale req db := by
  refine ⟨totalsOk_applySaleOps ops db h, ?_⟩
  intro req t
  cases req
  rfl

/-- Witness instantiating C4 on a concrete database and operation list. -/
theorem sale_total_correct_witness :
    salesTotalsOk dbW4 ∧
    (salesTotalsOk (applySaleOps dbW4 opsW4) ∧
      ∀ req t, recordSale { req with clientTotal := t } dbW4 = recordSale req dbW4) :=
  ⟨by decide, sale_total_correct dbW4 opsW4 (by decide)⟩

/-- C8 counterexample: a RecordSale call with quantity -1 is not rejected:
the guard `!quantity` only catches 0, so the sale is persisted and the
total_purchases of the customer moves by -5.  This refutes the claim that
negative quantities are rejected before any write. -/
theorem recordSale_negative_quantity_cex :
    reqC8.quantity = -1 ∧
    (recordSale reqC8 dbC8).2.isCreated = true ∧
    (recordSale reqC8 dbC8).1.sales.length = 1 ∧
    (recordSale reqC8 dbC8).1.customers.map (fun c => c.total_purchases) = [-5] := by
  decide

/-- C8 amended: a RecordSale call whose quantity or unitPrice equals 0 is
rejected as a validation error before any write: the state is returned
unchanged, no Sale is persisted and no counter moves.  (Negative values are
truthy in the guard and are not rejected.) -/
theorem recordSale_zero_rejected (req : SaleReq) (db : SalesDB)
    (h : req.quantity = 0 ∨ req.unitPrice = 0) :
    (recordSale req db).1 = db ∧
    ∃ msg, (recordSale req db).2 = SaleResult.validationError msg := by
  have hmiss : saleReqMissing req = true := by
    rcases h with h | h <;> simp [saleReqMissing, h]
  unfold recordSale
  rw [if_pos hmiss]
  exact ⟨rfl, _, rfl⟩

/-- Witness instantiating the amended C8 at quantity 0. -/
theorem recordSale_zero_rejected_witness :
    (reqW8.quantity = 0 ∨ reqW8.unitPrice = 0) ∧
    ((recordSale reqW8 dbC8).1 = dbC8 ∧
      ∃ msg, (recordSale reqW8 dbC8).2 = SaleResult.validationError msg) :=
  ⟨Or.inl (by decide), recordSale_zero_rejected reqW8 dbC8 (Or.inl (by decide))⟩

/-- C10: the sale-update operation writes only payment_status,
payment_method and notes: it never changes the customer table, never
changes the customer_id of any sale, quantity, unit_price or total_amount, and
therefore preserves both the ledger invariant and the sale-total
equation. -/
theorem update_sale_frame (db : SalesDB) (sid : Nat) (ps pm n : Option String) :
    (updateSale sid ps pm n db).customers = db.customers ∧
    (updateSale sid ps pm n db).sales.map
        (fun s => (s.customer_id, s.quantity, s.unit_price, s.total_amount))
      = db.sales.map (fun s => (s.customer_id, s.quantity, s.unit_price, s.total_amount)) ∧
    (∀ cid, ledgerOk db cid → ledgerOk (updateSale sid ps pm n db) cid) ∧
    (salesTotalsOk db → salesTotalsOk (updateSale sid ps pm n db)) := by
  refine ⟨?_, ?_, ?_, ?_⟩
  · unfold updateSale
    split <;> rfl
  · unfold updateSale
    split
    · simp only [List.map_map]
      apply List.map_congr_left
      intro s _
      simp only [Function.comp]
      split <;> rfl
    · rfl
  · exact fun cid h => ledgerOk_updateSale sid ps pm n db cid h
  · exact fun h => totalsOk_updateSale sid ps pm n db h

/-! ## Helper lemmas about the poultry model -/

theorem mkHealthRecord_batch_id (req : HealthReq) (hid : Nat) :
    (mkHealthRecord req hid).batch_id = req.batchId := rfl

theorem mkHealthRecord_mortality (req : HealthReq) (hid : Nat) :
    (mkHealthRecord req hid).mortality_count = req.mortalityCount := by
  show jsOrInt req.mortalityCount 0 = req.mortalityCount
  exact jsOrInt_zero req.mortalityCount

theorem mortalitySum_nil (bid : Nat) : mortalitySum [] bid = 0 := rfl

theorem mortalitySum_cons (r : HealthRecord) (l : List HealthRecord) (bid : Nat) :
    mortalitySum (r :: l) bid =
      (if r.batch_id = bid then r.mortality_count else 0) + mortalitySum l bid := by
  by_cases h : r.batch_id = bid
  · simp [mortalitySum, List.filter_cons, h]
  · simp [mortalitySum, List.filter_cons, h]

theorem mortalitySum_append (l₁ l₂ : List HealthRecord) (bid : Nat) :
    mortalitySum (l₁ ++ l₂) bid = mortalitySum l₁ bid + mortalitySum l₂ bid := by
  simp [mortalitySum, List.filter_append]

theorem mortalitySum_eq_zero (l : List HealthRecord) (bid : Nat)
    (h : ∀ r ∈ l, r.batch_id ≠ bid) : mortalitySum l bid = 0 := by
  induction l with
  | nil => rfl
  | cons r l ih =>
    rw [mortalitySum_cons, if_neg (h r (List.mem_cons_self r l)),
      ih (fun x hx => h x (List.mem_cons_of_mem r hx))]
    ring

theorem mortalityOk_createBatch (req : BatchReq) (db : PoultryDB)
    (hb : ∀ b ∈ db.batches, b.id ≠ db.nextBatchId)
    (hr : ∀ r ∈ db.health_records, r.batch_id ≠ db.nextBatchId) :
    mortalityOk (createBatch req db).1 db.nextBatchId := by
  unfold createBatch
  split
  · exact fun b hb' hbid => absurd hbid (hb b hb')
  · intro b hb' hbid
    simp only at hb' ⊢
    rcases List.mem_append.mp hb' with h1 | h1
    · exact absurd hbid (hb b h1)
    · rw [List.mem_singleton.mp h1, mortalitySum_eq_zero _ _ hr]
      show req.initialCount = req.initialCount - 0
      ring

theorem mortalityOk_recordHealthEvent (req : HealthReq) (db : PoultryDB) (bid : Nat)
    (hm : 0 ≤ req.mortalityCount) (h : mortalityOk db bid) :
    mortalityOk (recordHealthEvent req db).1 bid := by
  unfold recordHealthEvent
  split
  · exact h
  · split
    · exact h
    · split
      · next hcond =>
        intro b' hb' hbid
        simp only at hb' hbid ⊢
        rw [List.mem_map] at hb'
        obtain ⟨b, hb, rfl⟩ := hb'
        have hbid' : b.id = bid := by
          split at hbid
          · exact hbid
          · exact hbid
        rw [mortalitySum_append, mortalitySum_cons, mortalitySum_nil,
          mkHealthRecord_batch_id, mkHealthRecord_mortality]
        by_cases hmatch : b.id = req.batchId
        · rw [if_pos (by simp [hmatch])]
          rw [if_pos (by omega)]
          have := h b hb hbid'
          simp only
          omega
        · rw [if_neg (by simp [hmatch])]
          rw [if_neg (by omega)]
          have := h b hb hbid'
          omega
      · next hcond =>
        have hz : req.mortalityCount = 0 := by
          rw [Bool.and_eq_true, Bool.not_eq_true', beq_eq_false_iff_ne,
            decide_eq_true_eq] at hcond
          omega
        intro b hb hbid
        simp only at hb ⊢
        rw [mortalitySum_append, mortalitySum_cons, mortalitySum_nil,
          mkHealthRecord_mortality, hz]
        have := h b hb hbid
        split <;> omega

theorem mortalityOk_foldHealth (reqs : List HealthReq) (db : PoultryDB) (bid : Nat)
    (hm : ∀ r ∈ reqs, 0 ≤ r.mortalityCount) (h : mortalityOk db bid) :
    mortalityOk (reqs.foldl (fun d r => (recordHealthEvent r d).1) db) bid := by
  induction reqs generalizing db with
  | nil => exact h
  | cons r reqs ih =>
    exact ih ((recordHealthEvent r db).1)
      (fun x hx => hm x (List.mem_cons_of_mem r hx))
      (mortalityOk_recordHealthEvent r db bid (hm r (List.mem_cons_self r reqs)) h)

/-! ## Claims about the poultry mortality counter -/

/-- C3 counterexample: a batch created with initial_count 1 followed by one
RecordHealthEvent with mortality_count 5 leaves current_count at -4, a
negative observed value (nothing clamps or rejects the decrement).  This
refutes the clause that current_count is never observed negative. -/
theorem current_count_negative_cex :
    ((recordHealthEvent hreqC3 (createBatch breqC3 dbC3).1).1.batches.map
      (fun b => b.current_count)) = [-4] ∧ (-4 : Int) < 0 := by
  decide

/-- C3 amended: for a batch created with initial_count n and every sequence
of RecordHealthEvent operations whose mortality counts are nonnegative,
after the sequence (hence after each operation, every prefix being such a
sequence) current_count = n - (sum of mortality_count over the health
events recorded for that batch); the value can however be driven below
zero, as nothing clamps the subtraction. -/
theorem mortality_invariant (db : PoultryDB) (breq : BatchReq) (reqs : List HealthReq)
    (hb : ∀ b ∈ db.batches, b.id ≠ db.nextBatchId)
    (hr : ∀ r ∈ db.health_records, r.batch_id ≠ db.nextBatchId)
    (hm : ∀ r ∈ reqs, 0 ≤ r.mortalityCount) :
    mortalityOk (reqs.foldl (fun d r => (recordHealthEvent r d).1) (createBatch breq db).1)
      db.nextBatchId := by
  exact mortalityOk_foldHealth reqs (createBatch breq db).1 db.nextBatchId hm
    (mortalityOk_createBatch breq db hb hr)

/-- Witness instantiating the amended C3: initial_count 500, mortality 5
then 3, current_count ends at 492 and the invariant holds. -/
theorem mortality_invariant_witness :
    ((∀ b ∈ dbW3.batches, b.id ≠ dbW3.nextBatchId) ∧
      (∀ r ∈ dbW3.health_records, r.batch_id ≠ dbW3.nextBatchId) ∧
      (∀ r ∈ reqsW3, 0 ≤ r.mortalityCount)) ∧
    mortalityOk (reqsW3.foldl (fun d r => (recordHealthEvent r d).1) (createBatch breqW3 dbW3).1)
      dbW3.nextBatchId ∧
    ((reqsW3.foldl (fun d r => (recordHealthEvent r d).1) (createBatch breqW3 dbW3).1).batches.map
      (fun b => b.current_count)) = [492] :=
  ⟨⟨by decide, by decide, by decide⟩,
    mortality_invariant dbW3 breqW3 reqsW3 (by decide) (by decide) (by decide),
    by decide⟩

/-- Witness instantiating C10 on a concrete database. -/
theorem update_sale_frame_witness :
    (updateSale 1 (some "paid") (some "cash") (some "ok") dbW10).customers = dbW10.customers ∧
    (updateSale 1 (some "paid") (some "cash") (some "ok") dbW10).sales.map
        (fun s => (s.customer_id, s.quantity, s.unit_price, s.total_amount))
      = dbW10.sales.map (fun s => (s.customer_id, s.quantity, s.unit_price, s.total_amount)) ∧
    (∀ cid, ledgerOk dbW10 cid →
      ledgerOk (updateSale 1 (some "paid") (some "cash") (some "ok") dbW10) cid) ∧
    (salesTotalsOk dbW10 →
      salesTotalsOk (updateSale 1 (some "paid") (some "cash") (some "ok") dbW10)) :=
  update_sale_frame dbW10 1 (some "paid") (some "cash") (some "ok")

/-! ## Helper lemmas about the orders model -/

theorem orderItems_total (l : List OrderItem) (a : Int) :
    l.foldl (fun sum i => sum + i.quantity * jsOrInt i.unitPrice 0) a
      = a + (l.map (fun i => i.quantity * i.unitPrice)).sum := by
  induction l generalizing a with
  | nil => simp
  | cons i l ih =>
    rw [List.foldl_cons, ih, List.map_cons, List.sum_cons, jsOrInt_zero]
    ring

theorem mkOrder_order_items (req : OrderReq) (onum : String) (oid : Nat) (t : Int) :
    (mkOrder req onum oid t).order_items = req.items := rfl

theorem mkOrder_total_amount (req : OrderReq) (onum : String) (oid : Nat) (t : Int) :
    (mkOrder req onum oid t).total_amount = t := rfl

theorem isB36Char_b36Char : ∀ n, n < 36 → isB36Char (b36Char n) = true := by
  decide

theorem toB36Go_ne_nil (fuel n : Nat) : toB36Go (fuel + 1) n ≠ [] := by
  unfold toB36Go
  split
  · simp
  · simp

theorem toB36Go_all (fuel : Nat) : ∀ n, (toB36Go fuel n).all isB36Char = true := by
  induction fuel with
  | zero => intro n; rfl
  | succ fuel ih =>
    intro n
    unfold toB36Go
    split
    · next h => simp [isB36Char_b36Char n h]
    · next h =>
      rw [List.all_append]
      have h36 : n % 36 < 36 := Nat.mod_lt _ (by omega)
      simp [ih (n / 36), isB36Char_b36Char (n % 36) h36]

theorem all_b36_no_dash (l : List Char) (h : l.all isB36Char = true) :
    ∀ c ∈ l, c ≠ '-' := by
  intro c hc he
  have hb := List.all_eq_true.mp h c hc
  subst he
  exact absurd hb (by decide)

theorem splitAtDash_append (xs ys : List Char) (h : ∀ c ∈ xs, c ≠ '-') :
    splitAtDash (xs ++ '-' :: ys) = some (xs, ys) := by
  induction xs with
  | nil => simp [splitAtDash]
  | cons c cs ih =>
    have hc : c ≠ '-' := h c (List.mem_cons_self c cs)
    rw [List.cons_append]
    simp only [splitAtDash, if_neg hc,
      ih (fun x hx => h x (List.mem_cons_of_mem c hx))]

theorem randChars_all (rand : List (Fin 36)) : (randChars rand).all isB36Char = true := by
  rw [List.all_eq_true]
  intro c hc
  rw [randChars, List.mem_map] at hc
  obtain ⟨d, -, rfl⟩ := hc
  exact isB36Char_b36Char d.val d.isLt

/-! ## Claims about orders -/

/-- C5: whenever PlaceOrder persists an order, its stored total_amount
equals the sum of quantity times unitPrice over the captured item snapshot,
the order is appended to the store, and any client-supplied total field is
ignored (the handler computes the total itself). -/
theorem order_total_correct (req : OrderReq) (t : Nat) (r : List (Fin 36))
    (db db' : OrderDB) (o : Order)
    (h : placeOrder req t r db = (db', PlaceResult.placed o)) :
    o.total_amount = (o.order_items.map (fun i => i.quantity * i.unitPrice)).sum ∧
    db'.orders = db.orders ++ [o] ∧
    ∀ ct, placeOrder { req with clientTotal := ct } t r db = placeOrder req t r db := by
  have hfree : ∀ ct, placeOrder { req with clientTotal := ct } t r db
      = placeOrder req t r db := by
    intro ct
    cases req
    rfl
  unfold placeOrder at h
  split at h
  · simp at h
  · split at h
    · simp at h
    · split at h
      · simp at h
      · simp only [Prod.mk.injEq] at h
        obtain ⟨hdb, hres⟩ := h
        cases hres
        refine ⟨?_, ?_, hfree⟩
        · rw [mkOrder_total_amount, mkOrder_order_items]
          unfold orderTotal
          rw [orderItems_total]
          ring
        · rw [← hdb]

/-- Witness instantiating C5: order of 2 x 15000 yields total 30000 (the
concrete scenario of the spec). -/
theorem order_total_correct_witness :
    placeOrder reqW5 0 randW6 dbW5 = (dbW5out, PlaceResult.placed oW5) ∧
    (oW5.total_amount = (oW5.order_items.map (fun i => i.quantity * i.unitPrice)).sum ∧
      dbW5out.orders = dbW5.orders ++ [oW5] ∧
      ∀ ct, placeOrder { reqW5 with clientTotal := ct } 0 randW6 dbW5
        = placeOrder reqW5 0 randW6 dbW5) :=
  ⟨by decide, order_total_correct reqW5 0 randW6 dbW5 dbW5out oW5 (by decide)⟩

/-- C6 counterexample: with Date.now() = 99 and the random draw 0.5 (which
prints in base 36 as 0.i, a one-digit expansion), the generated value is
CFM-2R-I, whose random suffix has length 1, not 4: the claimed pattern
PREFIX-[A-Z0-9]+-[A-Z0-9]{4} does not match every generated value. -/
theorem order_number_short_suffix_cex :
    matchesOrderPattern (generateOrderNumber 99 randC6) = false ∧
    generateOrderNumber 99 randC6 = "CFM-2R-I" := by
  decide

/-- C6 amended: every generated order number is CFM, a dash, the time in
milliseconds rendered in uppercase base 36, a dash, and the first at-most-4
digits of the base-36 expansion of the random draw uppercased; whenever that
expansion has at least 4 digits (the typical case) the suffix has exactly 4
characters and the value matches PREFIX-[A-Z0-9]+-[A-Z0-9]{4}. -/
theorem order_number_format (t : Nat) (rand : List (Fin 36)) (h : 4 ≤ rand.length) :
    matchesOrderPattern (generateOrderNumber t rand) = true := by
  have hts : (toB36 t).all isB36Char = true := toB36Go_all (t + 1) t
  have hne : toB36 t ≠ [] := toB36Go_ne_nil t t
  show matchesOrderPattern
    (String.mk ('C' :: 'F' :: 'M' :: '-' :: (toB36 t ++ '-' :: randChars rand))) = true
  unfold matchesOrderPattern
  simp only
  rw [splitAtDash_append (toB36 t) (randChars rand) (all_b36_no_dash _ hts)]
  have hlen : (randChars rand).length = 4 := by
    rw [randChars, List.length_map, List.length_take]
    omega
  simp [hts, hne, hlen, randChars_all]

/-- Witness instantiating the amended C6 on a four-digit random draw. -/
theorem order_number_format_witness :
    4 ≤ randW6.length ∧ matchesOrderPattern (generateOrderNumber 3 randW6) = true :=
  ⟨by decide, order_number_format 3 randW6 (by decide)⟩

/-- C7: a requested status outside the five valid values is rejected with
the state unchanged; a status inside the set is accepted from any current
status whatsoever: the targeted order reappears with the new status (and
every other order is untouched), with no transition graph consulted - in
particular backward moves and moves out of delivered or cancelled are
accepted. -/
theorem update_status_free_transitions (db : OrderDB) (oid : Nat) (s : String) :
    (s ∉ validStatuses → updateOrderStatus db oid s = (db, StatusResult.invalid)) ∧
    (s ∈ validStatuses →
      ∀ o ∈ db.orders, o.id = oid →
        ({ o with status := s } : Order) ∈ (updateOrderStatus db oid s).1.orders ∧
        ∀ o' ∈ db.orders, o'.id ≠ oid → o' ∈ (updateOrderStatus db oid s).1.orders) := by
  constructor
  · intro hs
    have hc : validStatuses.contains s = false := by
      show validStatuses.elem s = false
      rw [List.elem_eq_mem]
      exact decide_eq_false hs
    unfold updateOrderStatus
    rw [if_pos (by rw [hc]; simp)]
  · intro hs o ho hoid
    have hc : validStatuses.contains s = true := by
      show validStatuses.elem s = true
      rw [List.elem_eq_mem]
      exact decide_eq_true hs
    have hne : (s == "") = false := by
      have hs0 : s ≠ "" := by
        intro he
        subst he
        exact absurd hs (by decide)
      simp [hs0]
    have horders : (updateOrderStatus db oid s).1.orders
        = db.orders.map (fun o => if o.id == oid then { o with status := s } else o) := by
      unfold updateOrderStatus
      rw [if_neg (by rw [hne, hc]; simp)]
    rw [horders]
    constructor
    · rw [List.mem_map]
      exact ⟨o, ho, by simp [hoid]⟩
    · intro o' ho' hne'
      rw [List.mem_map]
      exact ⟨o', ho', by simp [hne']⟩

/-- Witness instantiating C7: an order in the terminal state delivered is
moved back to confirmed. -/
theorem update_status_free_transitions_witness :
    ("confirmed" ∈ validStatuses ∧ ordW7 ∈ dbW7.orders ∧ ordW7.id = 1 ∧
      ordW7.status = "delivered") ∧
    ({ ordW7 with status := "confirmed" } : Order)
      ∈ (updateOrderStatus dbW7 1 "confirmed").1.orders :=
  ⟨⟨by decide, by decide, by decide, by decide⟩,
    (((update_status_free_transitions dbW7 1 "confirmed").2 (by decide))
      ordW7 (by decide) (by decide)).1⟩

/-! ## Claim about the recent-activity feed -/

/-- C9: the activities handler concatenates the per-table result sets and
then fails to reorder them: its sort comparator reads a date property the
rows do not carry (the column is aliased timestamp), so every comparison is
a tie and the stable sort leaves the concatenation unchanged.  At this
concrete state the egg row (timestamp 2024-01-01) precedes the newer sale
row (timestamp 2024-06-01), so the output is not ordered by timestamp
descending, contradicting both the sort-by-timestamp comment in the handler
and the claim. -/
theorem activities_not_sorted_cex :
    (getActivities dbC9 none).map (fun r => (r.type, r.timestamp))
      = [("egg", "2024-01-01"), ("sale", "2024-06-01")] ∧
    ¬ timestampsSortedDesc (getActivities dbC9 none) := by
  constructor
  · decide
  · decide

end CFM
